import Mathlib

/-!
Shallow embedding of `src/src/main.rs` (a warp-based to-do HTTP server).

The store is `Arc<Mutex<Vec<Todo>>>`; each handler locks the vector for the
duration of the call, so each handler is modelled as a pure state transformer
`List Todo → Reply × List Todo` on the vector's contents.  Ids are Rust `u64`
values, used only for equality comparison, hence modelled as `Nat`.
-/

namespace Todos

/-- The `Todo` struct: `{ id: u64, text: String, completed: bool }`. -/
structure Todo where
  id : Nat
  text : String
  completed : Bool
deriving DecidableEq, Repr

/-- The `Post` struct proxied from the upstream API:
`{ userId: i32, id: i32, title: String, body: String }`. -/
structure Post where
  user_id : Int
  id : Int
  title : String
  body : String
deriving DecidableEq, Repr

/-- Status outcomes of `create_todo`: `201 Created` or `400 Bad Request`. -/
inductive CreateReply where
  | created
  | badRequest
deriving DecidableEq, Repr

/-- Status outcomes of `update_todo`: `200 OK` (via `warp::reply()`) or the
`404` rejection `warp::reject::not_found()`. -/
inductive UpdateReply where
  | ok
  | notFound
deriving DecidableEq, Repr

/-- Status outcomes of `delete_todo`: `204 No Content` or the `404` rejection. -/
inductive DeleteReply where
  | noContent
  | notFound
deriving DecidableEq, Repr

/-- `GET /todos` handler `list_todos`: replies with the JSON array of all
todos (modelled as the list itself) and leaves the vector untouched. -/
def list_todos (db : List Todo) : List Todo × List Todo :=
  (db, db)

/-- `POST /todos` handler `create_todo`: scans the vector; if any existing
todo has the same id it returns `400` leaving the vector unchanged, otherwise
it pushes the new todo at the end and returns `201`. -/
def create_todo (c : Todo) (db : List Todo) : CreateReply × List Todo :=
  if db.any fun todo => todo.id == c.id then
    (.badRequest, db)
  else
    (.created, db ++ [c])

/-- `PUT /todos/:id` handler `update_todo`: scans the vector with `iter_mut`;
the first todo whose id equals the path id is overwritten in place with the
full request body (`*todo = update`), returning `200`; if no todo matches the
request is rejected with `404` and the vector is unchanged. -/
def update_todo (id : Nat) (u : Todo) : List Todo → UpdateReply × List Todo
  | [] => (.notFound, [])
  | todo :: rest =>
    if todo.id == id then
      (.ok, u :: rest)
    else
      let res := update_todo id u rest
      (res.1, todo :: res.2)

/-- `DELETE /todos/:id` handler `delete_todo`: `vec.retain(|todo| todo.id != id)`
removes every todo whose id matches; if the length shrank it returns `204`,
otherwise the request is rejected with `404` (and the vector, unchanged by
`retain`, keeps its contents). -/
def delete_todo (id : Nat) (db : List Todo) : DeleteReply × List Todo :=
  let vec := db.filter fun todo => todo.id != id
  if vec.length != db.length then
    (.noContent, vec)
  else
    (.notFound, vec)

/-- `fetch_json`'s error type `FetchError`: transport errors (`hyper::Error`)
and decode errors (`serde_json::Error`). -/
inductive FetchError where
  | Http
  | Json
deriving DecidableEq, Repr

/-- `fetch_json`: performs a single outbound GET (attempt `0` of the ambient
sequence of upstream outcomes `upstream`), then decodes the concatenated body
with `serde_json`; a transport failure maps to `FetchError::Http`, a decode
failure to `FetchError::Json`.  The decoder is the ambient `decode`. -/
def fetch_json (upstream : Nat → Except Unit String)
    (decode : String → Except Unit (List Post)) : Except FetchError (List Post) :=
  match upstream 0 with
  | .error _ => .error .Http
  | .ok body =>
    match decode body with
    | .error _ => .error .Json
    | .ok posts => .ok posts

/-- Reply of `GET /posts`: `200` with the JSON list, or the `404` rejection. -/
inductive PostsReply where
  | ok (posts : List Post)
  | notFound
deriving DecidableEq, Repr

/-- `GET /posts` handler `posts_list`: on `fetch_json` success replies `200`
with the parsed list; any `FetchError` is mapped to `warp::reject::not_found()`. -/
def posts_list (upstream : Nat → Except Unit String)
    (decode : String → Except Unit (List Post)) : PostsReply :=
  match fetch_json upstream decode with
  | .ok posts => .ok posts
  | .error _ => .notFound

/-- Failures of the `json_body` filter: the `content_length_limit(1024 * 16)`
rejection for oversized bodies, and the JSON-deserialization rejection. -/
inductive BodyError where
  | tooLarge
  | malformed
deriving DecidableEq, Repr

/-- The `json_body` filter: `warp::body::content_length_limit(1024 * 16)`
rejects bodies longer than 16 KiB before `warp::body::json()` ever runs the
deserializer `decode`. -/
def json_body (decode : List Char → Option Todo) (body : List Char) :
    Except BodyError Todo :=
  if 1024 * 16 < body.length then
    .error .tooLarge
  else
    match decode body with
    | some t => .ok t
    | none => .error .malformed

/-- The full `POST /todos` route: `json_body` then `create_todo`; a body
rejection leaves the store untouched. -/
def post_todos (decode : List Char → Option Todo) (body : List Char)
    (db : List Todo) : Except BodyError CreateReply × List Todo :=
  match json_body decode body with
  | .error e => (.error e, db)
  | .ok t =>
    let res := create_todo t db
    (.ok res.1, res.2)

/-- The full `PUT /todos/:id` route: `json_body` then `update_todo`; a body
rejection leaves the store untouched. -/
def put_todos (decode : List Char → Option Todo) (id : Nat) (body : List Char)
    (db : List Todo) : Except BodyError UpdateReply × List Todo :=
  match json_body decode body with
  | .error e => (.error e, db)
  | .ok t =>
    let res := update_todo id t db
    (.ok res.1, res.2)

/-- A mutating request against the store: the store-changing part of
`POST /todos`, `PUT /todos/:id` and `DELETE /todos/:id`. -/
inductive Op where
  | create (t : Todo)
  | update (id : Nat) (t : Todo)
  | delete (id : Nat)
deriving DecidableEq, Repr

/-- The store contents after one handler call. -/
def applyOp (db : List Todo) : Op → List Todo
  | .create t => (create_todo t db).2
  | .update id t => (update_todo id t db).2
  | .delete id => (delete_todo id db).2

/-- The store contents after a sequence of handler calls. -/
def execOps : List Todo → List Op → List Todo
  | db, [] => db
  | db, op :: ops => execOps (applyOp db op) ops

/-- No two records in the store share an id. -/
def UniqueIds (db : List Todo) : Prop :=
  (db.map Todo.id).Nodup

instance (db : List Todo) : Decidable (UniqueIds db) :=
  inferInstanceAs (Decidable (List.Nodup _))

/-- An update is benign when its body id equals the path id or is absent from
the store; other operations are unconditionally benign. -/
def opSafe (db : List Todo) : Op → Bool
  | .update id t => t.id == id || !(db.any fun x => x.id == t.id)
  | _ => true

/-- Every operation of the sequence is benign in the state where it runs. -/
def safeOps : List Todo → List Op → Bool
  | _, [] => true
  | db, op :: ops => opSafe db op && safeOps (applyOp db op) ops

/-- Sample upstream behaviour: every attempt answers with body `"[]"`. -/
def sampleUpstreamOk : Nat → Except Unit String := fun _ => .ok "[]"

/-- Sample upstream behaviour: every attempt fails at the transport level. -/
def sampleUpstreamErr : Nat → Except Unit String := fun _ => .error ()

/-- Sample JSON decoder accepting every body as the empty list of posts. -/
def sampleDecodeOk : String → Except Unit (List Post) := fun _ => .ok []

/-- Sample JSON decoder rejecting every body. -/
def sampleDecodeErr : String → Except Unit (List Post) := fun _ => .error ()

/-- Sample `Todo` deserializer rejecting every body. -/
def sampleDecodeNone : List Char → Option Todo := fun _ => none

/-- Sample `Todo` deserializer accepting every body. -/
def sampleDecodeSome : List Char → Option Todo := fun _ => some ⟨0, "a", false⟩

/-- A request body one byte over the 16 KiB limit. -/
def bigBody : List Char := List.replicate 16385 'a'

/-! Helper lemmas characterizing the handlers. -/

/-- The conflict branch of `create_todo`: a duplicate id yields `400` and the
vector is unchanged. -/
theorem create_todo_conflict (c : Todo) (db : List Todo)
    (h : ∃ t ∈ db, t.id = c.id) : create_todo c db = (.badRequest, db) := by
  have hany : (db.any fun todo => todo.id == c.id) = true := by
    obtain ⟨t, ht, hid⟩ := h
    exact List.any_eq_true.mpr ⟨t, ht, by simp [hid]⟩
  simp [create_todo, hany]

/-- The success branch of `create_todo`: a fresh id is appended at the end and
yields `201`. -/
theorem create_todo_no_conflict (c : Todo) (db : List Todo)
    (h : ¬ ∃ t ∈ db, t.id = c.id) : create_todo c db = (.created, db ++ [c]) := by
  have hany : (db.any fun todo => todo.id == c.id) = false := by
    rw [List.any_eq_false]
    intro t ht
    simp only [beq_iff_eq]
    exact fun hid => h ⟨t, ht, hid⟩
  simp [create_todo, hany]

/-- `update_todo` either rewrites the first record whose id matches the path
id with the body, or finds no match and leaves the vector unchanged. -/
theorem update_todo_cases (id : Nat) (u : Todo) (db : List Todo) :
    (∃ l t r, db = l ++ t :: r ∧ t.id = id ∧ (∀ x ∈ l, x.id ≠ id) ∧
      update_todo id u db = (.ok, l ++ u :: r)) ∨
    ((∀ t ∈ db, t.id ≠ id) ∧ update_todo id u db = (.notFound, db)) := by
  induction db with
  | nil => exact .inr ⟨by simp, rfl⟩
  | cons todo rest ih =>
    by_cases h : todo.id = id
    · exact .inl ⟨[], todo, rest, rfl, h, by simp, by simp [update_todo, h]⟩
    · rcases ih with ⟨l, t, r, hdb, ht, hl, heq⟩ | ⟨hall, heq⟩
      · refine .inl ⟨todo :: l, t, r, by simp [hdb], ht, ?_, ?_⟩
        · intro x hx
          rcases List.mem_cons.mp hx with rfl | hx
          · exact h
          · exact hl x hx
        · simp [update_todo, h, heq]
      · refine .inr ⟨?_, by simp [update_todo, h, heq]⟩
        intro t ht
        rcases List.mem_cons.mp ht with rfl | ht
        · exact h
        · exact hall t ht

/-- When no record carries the path id, `update_todo` rejects with 404 and
leaves the vector unchanged. -/
theorem update_todo_not_found (id : Nat) (u : Todo) (db : List Todo)
    (h : ∀ t ∈ db, t.id ≠ id) : update_todo id u db = (.notFound, db) := by
  rcases update_todo_cases id u db with ⟨l, t, r, hdb, ht, _, _⟩ | ⟨_, heq⟩
  · exact absurd ht (h t (hdb ▸ List.mem_append_right l (List.mem_cons_self t r)))
  · exact heq

/-- The vector after `delete_todo` is always the filtered vector. -/
theorem delete_todo_state (id : Nat) (db : List Todo) :
    (delete_todo id db).2 = db.filter fun todo => todo.id != id := by
  by_cases h : ((db.filter fun todo => todo.id != id).length != db.length) = true <;>
    simp [delete_todo, h]

/-- `delete_todo` either removes at least one matching record and replies 204,
or finds none, replies 404 and leaves the vector unchanged. -/
theorem delete_todo_cases (id : Nat) (db : List Todo) :
    ((∃ t ∈ db, t.id = id) ∧
      delete_todo id db = (.noContent, db.filter fun todo => todo.id != id)) ∨
    ((∀ t ∈ db, t.id ≠ id) ∧ delete_todo id db = (.notFound, db)) := by
  by_cases hex : ∃ t ∈ db, t.id = id
  · refine .inl ⟨hex, ?_⟩
    obtain ⟨t, htdb, hid⟩ := hex
    have hne : (db.filter fun todo => todo.id != id).length ≠ db.length := by
      intro heq
      have hfe : db.filter (fun todo => todo.id != id) = db :=
        (List.filter_sublist db).eq_of_length heq
      have ht' : t ∈ db.filter fun todo => todo.id != id := by rw [hfe]; exact htdb
      have := List.of_mem_filter ht'
      simp [hid] at this
    simp [delete_todo, hne]
  · push_neg at hex
    refine .inr ⟨hex, ?_⟩
    have hfe : db.filter (fun todo => todo.id != id) = db :=
      List.filter_eq_self.mpr fun t ht => by simp [hex t ht]
    simp [delete_todo, hfe]

/-- `create_todo`'s duplicate scan succeeds exactly when some record already
carries the id. -/
theorem create_todo_scan (c : Todo) (db : List Todo) :
    (db.any fun todo => todo.id == c.id) = true ↔ ∃ t ∈ db, t.id = c.id := by
  simp [List.any_eq_true]

/-- `create_todo` preserves uniqueness of ids. -/
theorem create_todo_unique (c : Todo) (db : List Todo) (h : UniqueIds db) :
    UniqueIds (create_todo c db).2 := by
  unfold create_todo
  by_cases hany : (db.any fun todo => todo.id == c.id) = true
  · simpa [hany] using h
  · have hmem : c.id ∉ db.map Todo.id := by
      intro hc
      obtain ⟨t, htdb, hid⟩ := List.mem_map.mp hc
      exact hany ((create_todo_scan c db).mpr ⟨t, htdb, hid⟩)
    have : UniqueIds (db ++ [c]) := by
      unfold UniqueIds
      rw [List.map_append, List.map_singleton, List.nodup_middle, List.nodup_cons]
      simp only [List.append_nil]
      exact ⟨hmem, h⟩
    simpa [hany] using this

/-- `update_todo` preserves uniqueness of ids when the body id equals the path
id or is absent from the store. -/
theorem update_todo_unique (id : Nat) (u : Todo) (db : List Todo)
    (h : UniqueIds db) (hsafe : u.id = id ∨ u.id ∉ db.map Todo.id) :
    UniqueIds (update_todo id u db).2 := by
  rcases update_todo_cases id u db with ⟨l, t, r, hdb, ht, _, heq⟩ | ⟨_, heq⟩
  · rw [heq]
    subst hdb
    unfold UniqueIds at h ⊢
    rw [List.map_append, List.map_cons, List.nodup_middle, List.nodup_cons] at h ⊢
    obtain ⟨htid, hnd⟩ := h
    refine ⟨?_, hnd⟩
    rcases hsafe with hidu | habs
    · rw [hidu, ← ht]; exact htid
    · intro hm
      apply habs
      rw [List.map_append, List.map_cons]
      rcases List.mem_append.mp hm with hl' | hr'
      · exact List.mem_append_left _ hl'
      · exact List.mem_append_right _ (List.mem_cons_of_mem _ hr')
  · rw [heq]; exact h

/-- `delete_todo` preserves uniqueness of ids. -/
theorem delete_todo_unique (id : Nat) (db : List Todo) (h : UniqueIds db) :
    UniqueIds (delete_todo id db).2 := by
  rw [delete_todo_state]
  exact ((List.filter_sublist db).map Todo.id).nodup h

/-- Every single benign handler call preserves uniqueness of ids. -/
theorem applyOp_unique (db : List Todo) (op : Op) (h : UniqueIds db)
    (hsafe : opSafe db op = true) : UniqueIds (applyOp db op) := by
  cases op with
  | create t => exact create_todo_unique t db h
  | update id t =>
    apply update_todo_unique id t db h
    simp only [opSafe, Bool.or_eq_true, beq_iff_eq, Bool.not_eq_eq_eq_not,
      Bool.not_true, List.any_eq_false] at hsafe
    rcases hsafe with hid | habs
    · exact .inl hid
    · refine .inr ?_
      intro hm
      obtain ⟨x, hx, hxid⟩ := List.mem_map.mp hm
      have := habs x hx
      simp [hxid] at this
  | delete id => exact delete_todo_unique id db h

/-- A benign sequence of handler calls preserves uniqueness of ids. -/
theorem execOps_unique (ops : List Op) : ∀ db, UniqueIds db →
    safeOps db ops = true → UniqueIds (execOps db ops) := by
  induction ops with
  | nil => intro db h _; exact h
  | cons op ops ih =>
    intro db h hsafe
    rw [safeOps, Bool.and_eq_true] at hsafe
    exact ih _ (applyOp_unique db op h hsafe.1) hsafe.2

/-! Claim theorems. -/

/-- Claim C1, counterexample: starting from the empty store, the sequence
Create `{id 0}`, Create `{id 1}`, Update at path id `0` with body `{id 1}`
leaves the store with two records carrying id `1`: `update_todo` replaces the
matched record by the body in full, so uniqueness of ids is not preserved by
every Update, refuting the claim as stated. -/
theorem uniqueness_broken_by_update :
    ¬ UniqueIds (execOps []
      [.create ⟨0, "a", false⟩, .create ⟨1, "b", false⟩,
       .update 0 ⟨1, "c", true⟩]) := by decide

/-- Claim C1, amended: starting from the empty store, after every sequence of
Create, Update and Delete operations in which each Update's body id equals the
path id or does not occur in the store, the store never holds two records with
the same id. -/
theorem uniqueness_preserved_of_safe (ops : List Op)
    (h : safeOps [] ops = true) : UniqueIds (execOps [] ops) :=
  execOps_unique ops [] (by simp [UniqueIds]) h

/-- Claim C1, witness for the amended theorem at a concrete benign sequence of
all three operations. -/
theorem uniqueness_preserved_of_safe_witness :
    safeOps [] [Op.create ⟨0, "a", false⟩, .create ⟨1, "b", false⟩,
      .update 1 ⟨1, "c", true⟩, .delete 0] = true ∧
    UniqueIds (execOps [] [Op.create ⟨0, "a", false⟩, .create ⟨1, "b", false⟩,
      .update 1 ⟨1, "c", true⟩, .delete 0]) :=
  ⟨by decide, uniqueness_preserved_of_safe _ (by decide)⟩

/-- Claim C2: `create_todo` replies `400 Bad Request` exactly when some
existing record carries the body's id, in which case the store is unchanged;
otherwise it appends the body at the end of the vector and replies
`201 Created`. -/
theorem create_todo_conflict_iff (c : Todo) (db : List Todo) :
    ((create_todo c db).1 = .badRequest ↔ ∃ t ∈ db, t.id = c.id) ∧
    ((∃ t ∈ db, t.id = c.id) → (create_todo c db).2 = db) ∧
    ((¬ ∃ t ∈ db, t.id = c.id) → create_todo c db = (.created, db ++ [c])) := by
  by_cases hex : ∃ t ∈ db, t.id = c.id
  · have heq := create_todo_conflict c db hex
    rw [heq]
    exact ⟨iff_of_true rfl hex, fun _ => rfl, fun h => absurd hex h⟩
  · have heq := create_todo_no_conflict c db hex
    rw [heq]
    refine ⟨iff_of_false (by simp) hex, fun h => absurd h hex, fun _ => rfl⟩

/-- Claim C2, witness: a duplicate-id create leaves the store unchanged, and a
fresh-id create appends. -/
theorem create_todo_conflict_iff_witness :
    (create_todo ⟨0, "dup", true⟩ [⟨0, "a", false⟩]).2 = [⟨0, "a", false⟩] ∧
    create_todo ⟨1, "b", false⟩ [⟨0, "a", false⟩] =
      (.created, [⟨0, "a", false⟩, ⟨1, "b", false⟩]) :=
  ⟨(create_todo_conflict_iff ⟨0, "dup", true⟩ [⟨0, "a", false⟩]).2.1 (by decide),
   (create_todo_conflict_iff ⟨1, "b", false⟩ [⟨0, "a", false⟩]).2.2 (by decide)⟩

/-- Claim C3, counterexample: on store `[{id 0}]`, `PUT /todos/0` with body
`{id 1, text "b", completed true}` succeeds with `200`, yet the subsequent
`GET /todos` holds no record with the matched id `0` at all: the outcome is
neither "reflects the new text and completed values, with the same id"
nor `404`, refuting the claim's disjunction as stated. -/
theorem update_loses_matched_id :
    (update_todo 0 ⟨1, "b", true⟩ [⟨0, "a", false⟩]).1 = .ok ∧
    ∀ t ∈ (list_todos (update_todo 0 ⟨1, "b", true⟩ [⟨0, "a", false⟩]).2).1,
      t.id ≠ 0 := by decide

/-- Claim C3, amended: for every path id and body task, `PUT /todos/{id}`
either replaces the first record whose id matches the path id by the body in
full — so a subsequent `GET /todos` reflects the new text and completed values
under the body's id (which may differ from the path id) — and returns `200`,
or returns `404` leaving the store unchanged when no record with that id
exists; no other outcome is possible. -/
theorem update_or_404 (id : Nat) (u : Todo) (db : List Todo) :
    (∃ l t r, db = l ++ t :: r ∧ t.id = id ∧ (∀ x ∈ l, x.id ≠ id) ∧
      update_todo id u db = (.ok, l ++ u :: r) ∧
      u ∈ (list_todos (l ++ u :: r)).1) ∨
    ((∀ t ∈ db, t.id ≠ id) ∧ update_todo id u db = (.notFound, db)) := by
  rcases update_todo_cases id u db with ⟨l, t, r, hdb, ht, hl, heq⟩ | ⟨hall, heq⟩
  · exact .inl ⟨l, t, r, hdb, ht, hl, heq, by simp [list_todos]⟩
  · exact .inr ⟨hall, heq⟩

/-- Claim C4: `delete_todo` removes every record whose id matches (the
resulting vector is the filtered vector), replies `204 No Content` exactly
when at least one record matched, and otherwise replies `404` with the store
unchanged. -/
theorem delete_todo_spec (id : Nat) (db : List Todo) :
    (delete_todo id db).2 = db.filter (fun todo => todo.id != id) ∧
    ((delete_todo id db).1 = .noContent ↔ ∃ t ∈ db, t.id = id) ∧
    ((delete_todo id db).1 = .notFound → (delete_todo id db).2 = db) := by
  refine ⟨delete_todo_state id db, ?_, ?_⟩ <;>
    rcases delete_todo_cases id db with ⟨hex, heq⟩ | ⟨hall, heq⟩ <;> rw [heq]
  · exact iff_of_true rfl hex
  · exact iff_of_false (by simp) fun h =>
      let ⟨t, ht, hid⟩ := h
      hall t ht hid
  · intro h; exact absurd h (by simp)
  · intro _; rfl

/-- Claim C4, witness: deleting a present id filters it out with `204`, and
deleting an absent id replies `404` leaving the store unchanged. -/
theorem delete_todo_spec_witness :
    (delete_todo 0 [⟨0, "a", false⟩, ⟨1, "b", false⟩]).2 =
      List.filter (fun todo => todo.id != 0) [⟨0, "a", false⟩, ⟨1, "b", false⟩] ∧
    ((delete_todo 0 [⟨0, "a", false⟩, ⟨1, "b", false⟩]).1 = .noContent) ∧
    ((delete_todo 5 [⟨0, "a", false⟩]).1 = .notFound →
      (delete_todo 5 [⟨0, "a", false⟩]).2 = [⟨0, "a", false⟩]) :=
  ⟨(delete_todo_spec 0 [⟨0, "a", false⟩, ⟨1, "b", false⟩]).1,
   (delete_todo_spec 0 [⟨0, "a", false⟩, ⟨1, "b", false⟩]).2.1.mpr (by decide),
   (delete_todo_spec 5 [⟨0, "a", false⟩]).2.2⟩

/-- Claim C5: `GET /todos` replies with exactly the records currently in the
store in their stored order; a successful create appends at the end; a
successful update rewrites one position in place, preserving the order of all
other records; a successful delete yields a sublist of the store, preserving
the relative order of the remaining records. -/
theorem list_snapshot_and_order (db : List Todo) (c : Todo) (id : Nat) (u : Todo) :
    (list_todos db).1 = db ∧
    ((¬ ∃ t ∈ db, t.id = c.id) → create_todo c db = (.created, db ++ [c])) ∧
    (∀ db', update_todo id u db = (.ok, db') →
      ∃ l t r, db = l ++ t :: r ∧ db' = l ++ u :: r) ∧
    (∀ db', delete_todo id db = (.noContent, db') → db'.Sublist db) := by
  refine ⟨rfl, create_todo_no_conflict c db, ?_, ?_⟩
  · intro db' hdb'
    rcases update_todo_cases id u db with ⟨l, t, r, hdb, _, _, heq⟩ | ⟨_, heq⟩
    · refine ⟨l, t, r, hdb, ?_⟩
      have := hdb'.symm.trans heq
      exact (Prod.mk.injEq _ _ _ _ ▸ this).2
    · have := hdb'.symm.trans heq
      exact absurd (Prod.mk.injEq _ _ _ _ ▸ this).1 (by simp)
  · intro db' hdb'
    have hst := delete_todo_state id db
    rw [hdb'] at hst
    have hdf : db' = db.filter fun todo => todo.id != id := hst
    rw [hdf]
    exact List.filter_sublist db

/-- Claim C5, witness: concrete instances of the snapshot, append, in-place
replacement and order-preserving deletion facts. -/
theorem list_snapshot_and_order_witness :
    (list_todos [⟨0, "a", false⟩]).1 = [⟨0, "a", false⟩] ∧
    create_todo ⟨1, "b", false⟩ [⟨0, "a", false⟩] =
      (.created, [⟨0, "a", false⟩, ⟨1, "b", false⟩]) ∧
    (∃ l t r, [(⟨0, "a", false⟩ : Todo)] = l ++ t :: r ∧
      [(⟨2, "c", true⟩ : Todo)] = l ++ ⟨2, "c", true⟩ :: r) ∧
    List.Sublist [] [(⟨0, "a", false⟩ : Todo)] :=
  ⟨(list_snapshot_and_order [⟨0, "a", false⟩] ⟨1, "b", false⟩ 0 ⟨2, "c", true⟩).1,
   (list_snapshot_and_order [⟨0, "a", false⟩] ⟨1, "b", false⟩ 0 ⟨2, "c", true⟩).2.1
     (by decide),
   (list_snapshot_and_order [⟨0, "a", false⟩] ⟨1, "b", false⟩ 0 ⟨2, "c", true⟩).2.2.1
     [⟨2, "c", true⟩] (by decide),
   (list_snapshot_and_order [⟨0, "a", false⟩] ⟨1, "b", false⟩ 0 ⟨2, "c", true⟩).2.2.2
     [] (by decide)⟩

/-- Claim C6: `GET /todos` leaves the store unchanged, and a second
`GET /todos` with no intervening write returns a result identical to the
first. -/
theorem list_todos_idempotent (db : List Todo) :
    (list_todos db).2 = db ∧
    (list_todos (list_todos db).2).1 = (list_todos db).1 :=
  ⟨rfl, rfl⟩

/-- Claim C7: after a successful `DELETE /todos/{id}` (204), a subsequent
DELETE on the same id replies `404` leaving the store unchanged, a subsequent
PUT on the same id with any body replies `404` leaving the store unchanged,
and the id no longer appears in the result of `GET /todos`. -/
theorem delete_then_absent (id : Nat) (db db' : List Todo)
    (h : delete_todo id db = (.noContent, db')) :
    delete_todo id db' = (.notFound, db') ∧
    (∀ u, update_todo id u db' = (.notFound, db')) ∧
    (∀ t ∈ (list_todos db').1, t.id ≠ id) := by
  have hdb' : db' = db.filter fun todo => todo.id != id := by
    have hst := delete_todo_state id db
    rw [h] at hst
    exact hst
  have hall : ∀ t ∈ db', t.id ≠ id := by
    intro t ht
    rw [hdb'] at ht
    have := List.of_mem_filter ht
    simpa using this
  refine ⟨?_, fun u => update_todo_not_found id u db' hall, fun t ht => hall t ht⟩
  rcases delete_todo_cases id db' with ⟨⟨t, ht, hid⟩, _⟩ | ⟨_, heq⟩
  · exact absurd hid (hall t ht)
  · exact heq

/-- Claim C7, witness: after deleting id `0` from `[{id 0}]` the store is `[]`
and both a second delete and an update on id `0` reply `404`. -/
theorem delete_then_absent_witness :
    delete_todo 0 [] = (.notFound, []) ∧
    update_todo 0 ⟨5, "x", true⟩ [] = (.notFound, []) :=
  ⟨(delete_then_absent 0 [⟨0, "a", false⟩] [] (by decide)).1,
   (delete_then_absent 0 [⟨0, "a", false⟩] [] (by decide)).2.1 ⟨5, "x", true⟩⟩

/-- Claim C8: `GET /posts` replies `200` with the parsed list exactly when the
single upstream fetch and the JSON decode both succeed; a transport failure
and a decode failure both collapse to the single observable outcome `404`;
the reply depends only on attempt `0` of the upstream (a single attempt, no
retry). -/
theorem posts_list_spec (a a' : Nat → Except Unit String)
    (d : String → Except Unit (List Post)) :
    (a 0 = a' 0 → posts_list a d = posts_list a' d) ∧
    (∀ body posts, a 0 = .ok body → d body = .ok posts →
      posts_list a d = .ok posts) ∧
    (∀ e, a 0 = .error e → posts_list a d = .notFound) ∧
    (∀ body e, a 0 = .ok body → d body = .error e →
      posts_list a d = .notFound) ∧
    (∀ posts, posts_list a d = .ok posts →
      ∃ body, a 0 = .ok body ∧ d body = .ok posts) := by
  refine ⟨?_, ?_, ?_, ?_, ?_⟩
  · intro h; simp [posts_list, fetch_json, h]
  · intro body posts h1 h2; simp [posts_list, fetch_json, h1, h2]
  · intro e h1; simp [posts_list, fetch_json, h1]
  · intro body e h1 h2; simp [posts_list, fetch_json, h1, h2]
  · intro posts h
    unfold posts_list fetch_json at h
    cases ha : a 0 with
    | error e => simp [ha] at h
    | ok body =>
      cases hd : d body with
      | error e => simp [ha, hd] at h
      | ok ps =>
        simp [ha, hd] at h
        exact ⟨body, rfl, by rw [hd, h]⟩

/-- Claim C8, witness: success yields `200` with the parsed list; transport
failure and decode failure each yield `404`. -/
theorem posts_list_spec_witness :
    posts_list sampleUpstreamOk sampleDecodeOk = .ok [] ∧
    posts_list sampleUpstreamErr sampleDecodeOk = .notFound ∧
    posts_list sampleUpstreamOk sampleDecodeErr = .notFound ∧
    posts_list sampleUpstreamOk sampleDecodeOk =
      posts_list sampleUpstreamOk sampleDecodeOk :=
  ⟨(posts_list_spec sampleUpstreamOk sampleUpstreamOk sampleDecodeOk).2.1
     "[]" [] rfl rfl,
   (posts_list_spec sampleUpstreamErr sampleUpstreamErr sampleDecodeOk).2.2.1
     () rfl,
   (posts_list_spec sampleUpstreamOk sampleUpstreamOk sampleDecodeErr).2.2.2.1
     "[]" () rfl rfl,
   (posts_list_spec sampleUpstreamOk sampleUpstreamOk sampleDecodeOk).1 rfl⟩

/-- Claim C9: a `POST /todos` or `PUT /todos/{id}` body longer than 16 KiB
(16384 bytes) is rejected by `content_length_limit` with a 400-class failure,
the store is left unchanged, and the outcome does not depend on the JSON
deserializer — no parsing and no store operation happens. -/
theorem body_limit_spec (decode decode' : List Char → Option Todo)
    (id : Nat) (body : List Char) (db : List Todo)
    (h : 1024 * 16 < body.length) :
    post_todos decode body db = (.error .tooLarge, db) ∧
    put_todos decode id body db = (.error .tooLarge, db) ∧
    post_todos decode body db = post_todos decode' body db ∧
    put_todos decode id body db = put_todos decode' id body db := by
  have hj : ∀ dc : List Char → Option Todo,
      json_body dc body = .error .tooLarge := fun dc => by simp [json_body, h]
  simp [post_todos, put_todos, hj]

/-- Claim C9, witness: a 16385-byte body is rejected on both routes, the store
stays `[]`, and an always-accepting and an always-rejecting deserializer give
the same outcome. -/
theorem body_limit_spec_witness :
    post_todos sampleDecodeSome bigBody [] = (.error .tooLarge, []) ∧
    put_todos sampleDecodeSome 0 bigBody [] = (.error .tooLarge, []) ∧
    post_todos sampleDecodeSome bigBody [] = post_todos sampleDecodeNone bigBody [] ∧
    put_todos sampleDecodeSome 0 bigBody [] = put_todos sampleDecodeNone 0 bigBody [] :=
  body_limit_spec sampleDecodeSome sampleDecodeNone 0 bigBody []
    (by norm_num [bigBody])

/-- Claim C10: when `PUT /todos/{id}` finds a record with the path id (the
first such record), the stored record afterwards is the request body in full —
its id becomes the body's id field, with no constraint tying the body's id to
the path id; the path id only locates the record to replace. -/
theorem update_full_replacement (id : Nat) (u : Todo) (l r : List Todo)
    (t : Todo) (ht : t.id = id) (hl : ∀ x ∈ l, x.id ≠ id) :
    update_todo id u (l ++ t :: r) = (.ok, l ++ u :: r) := by
  induction l with
  | nil => simp [update_todo, ht]
  | cons x xs ih =>
    have hx : x.id ≠ id := hl x (List.mem_cons_self x xs)
    have ih' := ih fun y hy => hl y (List.mem_cons_of_mem x hy)
    simp [update_todo, hx, ih']

/-- Claim C10, witness: replacing the record with id `0` by a body carrying a
different id `7` stores the body verbatim. -/
theorem update_full_replacement_witness :
    update_todo 0 ⟨7, "z", true⟩ [⟨0, "a", false⟩] = (.ok, [⟨7, "z", true⟩]) :=
  update_full_replacement 0 ⟨7, "z", true⟩ [] [] ⟨0, "a", false⟩ rfl (by simp)

end Todos
